import Mathlib

/-!
Shallow embedding of the Azure Container Apps capacity planner
(repository yelghali/azure-container-apps-capacity-planner).

The embedding follows the most recent prototype of the page component
(the version whose app inputs carry min/baseline/max replica counts);
its helper functions getAvailableIPs, getPerAppDedicatedNodes,
validateAppInput, validateAllApps and calculate are translated here one
by one.  Conventions used throughout:

* JavaScript numbers for resource quantities (cpu, ram, gpu) become
  exact rationals; replica counts become naturals.
* Math.floor and Math.ceil on a quotient become the integer floor and
  ceiling of the rational quotient.
* String scanning (startsWith, slice, regular-expression tests, split)
  is expressed by structural recursion over the string's character
  list, so that every definition evaluates inside the kernel.
* A JavaScript value of type string-or-null / string-or-undefined
  becomes an Option String; the empty string produced by the source is
  falsy in JavaScript, exactly like undefined, and is mapped to none
  where the source only ever consumes the value through truthiness.
* The source guards division so that a divisor of zero can only occur
  for inputs rejected by validation (cpu or ram nonpositive); theorems
  about the dedicated-plan arithmetic therefore carry the data-model
  invariant cpu > 0, ram > 0, gpu >= 0 as hypotheses.
-/

/-- Plan assignable to a single app: type PlanType = "Consumption" | "Dedicated". -/
inductive PlanType
  | Consumption
  | Dedicated
deriving DecidableEq, Repr

/-- Overall plan choice: type PlanChoice = PlanType | "Mix". -/
inductive PlanChoice
  | Consumption
  | Dedicated
  | Mix
deriving DecidableEq, Repr

/-- One catalog entry of DEDICATED_NODE_TYPES: { name, cpu, ram, gpu }. -/
structure NodeType where
  name : String
  cpu : ℚ
  ram : ℚ
  gpu : ℚ
deriving DecidableEq, Repr

/-- The fixed node-SKU catalog DEDICATED_NODE_TYPES, in source order. -/
def DEDICATED_NODE_TYPES : List NodeType :=
  [ ⟨"D4", 4, 16, 0⟩,
    ⟨"D8", 8, 32, 0⟩,
    ⟨"D16", 16, 64, 0⟩,
    ⟨"D32", 32, 128, 0⟩,
    ⟨"E4", 4, 32, 0⟩,
    ⟨"E8", 8, 64, 0⟩,
    ⟨"E16", 16, 128, 0⟩,
    ⟨"E32", 32, 256, 0⟩,
    ⟨"NC24-A100", 24, 220, 1⟩,
    ⟨"NC48-A100", 48, 440, 2⟩,
    ⟨"NC96-A100", 96, 880, 4⟩ ]

/-- One application's requirement row: type AppInput = { name, cpu, gpu, ram,
minReplicas, baselineReplicas, replicas, plan? }.  The optional plan tag is
only meaningful under the Mix plan choice. -/
structure AppInput where
  name : String
  cpu : ℚ
  gpu : ℚ
  ram : ℚ
  minReplicas : ℕ
  baselineReplicas : ℕ
  replicas : ℕ
  plan : Option PlanType
deriving DecidableEq, Repr

/-- Decimal value of a digit character. -/
def digitVal (c : Char) : ℕ := c.toNat - '0'.toNat

/-- Decimal value of a digit run, most significant digit first. -/
def digitsVal (cs : List Char) : ℕ := cs.foldl (fun n c => n * 10 + digitVal c) 0

/-- Model of JavaScript parseInt(s, 10) as used by the planner: an optional
leading minus sign followed by the longest prefix of decimal digits; no
digits at all gives NaN, modelled as none.  (The source never passes
strings with leading whitespace or a plus sign to parseInt.) -/
def parseIntChars (cs : List Char) : Option ℤ :=
  match cs with
  | '-' :: rest =>
    let d := rest.takeWhile Char.isDigit
    if d.isEmpty then none else some (-(digitsVal d : ℤ))
  | _ =>
    let d := cs.takeWhile Char.isDigit
    if d.isEmpty then none else some ((digitsVal d : ℕ) : ℤ)

/-- Number of set bits of a natural number, via repeated halving; a fuel
argument (the number itself suffices) keeps the recursion structural. -/
def popcountAux : ℕ → ℕ → ℕ
  | 0, _ => 0
  | fuel + 1, n => if n = 0 then 0 else n % 2 + popcountAux fuel (n / 2)

/-- Number of set bits of a natural number.  This is the count of "1"
characters in the binary string the source builds with toString(2), which
is what bin.split("1").length - 1 computes. -/
def popcount (n : ℕ) : ℕ := popcountAux n n

/-- Split a character list at every dot, matching String.prototype.split("."). -/
def splitOnDotAux : List Char → List Char → List (List Char)
  | [], acc => [acc.reverse]
  | c :: rest, acc =>
    if c = '.' then acc.reverse :: splitOnDotAux rest []
    else splitOnDotAux rest (c :: acc)

/-- Split a character list at every dot, matching String.prototype.split("."). -/
def splitOnDot (cs : List Char) : List (List Char) := splitOnDotAux cs []

/-- Test for the source's dotted-quad regular expression
^\d+\.\d+\.\d+\.\d+$ : exactly four dot-separated nonempty digit runs. -/
def isDottedQuad (cs : List Char) : Bool :=
  let ps := splitOnDot cs
  ps.length == 4 && ps.all (fun p => !p.isEmpty && p.all Char.isDigit)

/-- Total set-bit count of a dotted quad: the source pads each octet's
binary form to 8 digits (padStart never truncates) and counts the "1"
characters of the concatenation, which is the sum of the octets' popcounts. -/
def dottedBits (cs : List Char) : ℤ :=
  (((splitOnDot cs).map (fun p => popcount (digitsVal p))).sum : ℕ)

/-- getAvailableIPs(subnet): parses a prefix length from "/N", a bare digit
string, or a dotted-decimal mask (counting set bits), then returns
2^(32-bits) - 14.  The source's guard is the JavaScript truthiness test
`bits && bits >= 0 && bits <= 32`, so a parsed value of 0 is rejected and
yields null. -/
def getAvailableIPs (subnet : String) : Option ℤ :=
  let cs := subnet.data
  let bits : Option ℤ :=
    match cs with
    | '/' :: rest => parseIntChars rest
    | _ =>
      if !cs.isEmpty && cs.all Char.isDigit then parseIntChars cs
      else if isDottedQuad cs then some (dottedBits cs)
      else none
  match bits with
  | some b => if b ≠ 0 ∧ 0 ≤ b ∧ b ≤ 32 then some ((2 : ℤ) ^ (32 - b).toNat - 14) else none
  | none => none

/-- Dotted-decimal netmask with n leading one bits, written in the usual
four-octet form; used to state equivalence of the three accepted subnet
input forms. -/
def maskString (n : ℕ) : String :=
  let m : ℕ := 2 ^ 32 - 2 ^ (32 - n)
  toString (m / 2 ^ 24 % 256) ++ "." ++ toString (m / 2 ^ 16 % 256) ++ "." ++
    toString (m / 2 ^ 8 % 256) ++ "." ++ toString (m % 256)

/-- Fit test used by the source's catalog lookup:
n.cpu >= app.cpu && n.ram >= app.ram && n.gpu >= app.gpu. -/
def fitsNode (a : AppInput) (n : NodeType) : Bool :=
  a.cpu ≤ n.cpu && a.ram ≤ n.ram && a.gpu ≤ n.gpu

/-- The source's per-app catalog lookup
DEDICATED_NODE_TYPES.find(n => n.cpu >= app.cpu && n.ram >= app.ram && n.gpu >= app.gpu):
the first catalog entry, in list order, that fits a single replica. -/
def findNodeType (a : AppInput) : Option NodeType :=
  DEDICATED_NODE_TYPES.find? (fitsNode a)

/-- Resource family of a SKU, read off its name's alphabetic prefix
(D, E or NC); used to state in which sense the catalog order is
ascending. -/
def skuFamily (n : NodeType) : String :=
  ⟨n.name.data.takeWhile Char.isAlpha⟩

/-- perNodeCapacity of an app on a node:
Math.min(floor(node.cpu/app.cpu), floor(node.ram/app.ram),
app.gpu > 0 ? floor(node.gpu/app.gpu) : Infinity); the Infinity branch
drops the gpu term from the minimum. -/
def perNodeCapacity (n : NodeType) (a : AppInput) : ℤ :=
  let c := ⌊n.cpu / a.cpu⌋
  let r := ⌊n.ram / a.ram⌋
  if 0 < a.gpu then min (min c r) ⌊n.gpu / a.gpu⌋ else min c r

/-- The display name the source substitutes for an empty app name:
app.name || "(unnamed)". -/
def displayName (a : AppInput) : String :=
  if a.name = "" then "(unnamed)" else a.name

/-- One row of getPerAppDedicatedNodes' per-app output. -/
structure PerAppResult where
  appName : String
  nodeType : Option NodeType
  nodeTypeName : String
  replicas : ℕ
  nodesNeeded : ℤ
  perNodeCapacity : ℤ
  plan : String
  minReplicas : ℕ
deriving DecidableEq, Repr

/-- Loop body of getPerAppDedicatedNodes for one app: resolve the node
type; on failure emit the N/A row (nodesNeeded 0), otherwise compute
perNodeCapacity and nodesNeeded = perNodeCapacity > 0 ?
Math.ceil(replicas / perNodeCapacity) : 0. -/
def dedicatedPerApp (useMinReplicas : Bool) (a : AppInput) : PerAppResult :=
  let replicas := if useMinReplicas then a.minReplicas else a.replicas
  match findNodeType a with
  | none =>
    { appName := displayName a
      nodeType := none
      nodeTypeName := "N/A"
      replicas := replicas
      nodesNeeded := 0
      perNodeCapacity := 0
      plan := "Dedicated (N/A)"
      minReplicas := a.minReplicas }
  | some nt =>
    let cap := perNodeCapacity nt a
    { appName := displayName a
      nodeType := some nt
      nodeTypeName := nt.name
      replicas := replicas
      nodesNeeded := if 0 < cap then ⌈(replicas : ℚ) / (cap : ℚ)⌉ else 0
      perNodeCapacity := cap
      plan := "Dedicated (" ++ nt.name ++ ")"
      minReplicas := a.minReplicas }

/-- Aggregate result of getPerAppDedicatedNodes. -/
structure DedResult where
  perApp : List PerAppResult
  totalNodes : ℤ
  warning : Option String
deriving DecidableEq, Repr

/-- getPerAppDedicatedNodes(apps, useMinReplicas): per-app rows in input
order; totalNodes accumulates nodesNeeded (apps without a fitting node
type are skipped by the source's continue, equivalently contribute the 0
stored in their row); the warning string is assigned whenever some app
has no fitting node type. -/
def getPerAppDedicatedNodes (apps : List AppInput) (useMinReplicas : Bool) : DedResult :=
  let perApp := apps.map (dedicatedPerApp useMinReplicas)
  { perApp := perApp
    totalNodes := (perApp.map (fun e => e.nodesNeeded)).sum
    warning :=
      if apps.any (fun a => (findNodeType a).isNone) then
        some "No suitable node type found for one or more apps."
      else none }

/-- validateAppInput(app, planChoice): Consumption-plan resource limits,
checked only when the app is effectively on the Consumption plan; the
first violated limit wins. -/
def validateAppInput (a : AppInput) (planChoice : PlanChoice) : Option String :=
  let isConsumption :=
    planChoice = PlanChoice.Consumption ∨
      (planChoice = PlanChoice.Mix ∧ a.plan = some PlanType.Consumption)
  if isConsumption then
    if 4 < a.cpu then some "CPU must not exceed 4 for Consumption plan."
    else if 8 < a.ram then some "RAM must not exceed 8GB for Consumption plan."
    else if 0 < a.gpu then some "GPU is not supported for Consumption plan."
    else none
  else none

/-- Error-list label for app number idx (0-based index, displayed 1-based):
"App " + (app.name || idx + 1) + ": ". -/
def appLabel (idx : ℕ) (a : AppInput) : String :=
  "App " ++ (if a.name = "" then toString (idx + 1) else a.name) ++ ": "

/-- Errors contributed by one app inside validateAllApps' forEach body, in
push order: the validateAppInput message, then the cpu, ram, replica-order
and baseline-range checks. -/
def appErrors (idx : ℕ) (a : AppInput) (planChoice : PlanChoice) : List String :=
  ((validateAppInput a planChoice).map (fun e => appLabel idx a ++ e)).toList ++
    (if a.cpu ≤ 0 then [appLabel idx a ++ "CPU must be greater than 0."] else []) ++
    (if a.ram ≤ 0 then [appLabel idx a ++ "RAM must be greater than 0."] else []) ++
    (if a.replicas < a.minReplicas then
      [appLabel idx a ++ "Min Replicas must be less than or equal to Max Replicas."] else []) ++
    (if a.baselineReplicas < a.minReplicas ∨ a.replicas < a.baselineReplicas then
      [appLabel idx a ++ "Baseline Replicas must be between Min and Max Replicas."] else [])

/-- Tail of validateAllApps starting at a given forEach index. -/
def validateAllAppsFrom (idx : ℕ) : List AppInput → PlanChoice → List String
  | [], _ => []
  | a :: rest, planChoice => appErrors idx a planChoice ++ validateAllAppsFrom (idx + 1) rest planChoice

/-- validateAllApps(apps, planChoice): every app is visited (forEach, not
fail-fast) and its error messages are collected in order. -/
def validateAllApps (apps : List AppInput) (planChoice : PlanChoice) : List String :=
  validateAllAppsFrom 0 apps planChoice

/-- Per-app Consumption IP cost: Math.ceil(replicas / 10). -/
def ipUsedCons (replicas : ℕ) : ℤ := ⌈(replicas : ℚ) / 10⌉

/-- Effective minimum replica count used by the upgrade-phase accounting:
the source reads (app.minReplicas || 1), so a zero minimum counts as 1. -/
def minOr1 (a : AppInput) : ℕ := if a.minReplicas = 0 then 1 else a.minReplicas

/-- One row of the result's appAssignments table.  Consumption rows carry
an ipUsed figure and a dash for node data; Dedicated rows carry node data
and no ipUsed figure.  The source's "-" placeholders and absent fields
are both modelled as none. -/
structure Assignment where
  name : String
  plan : String
  replicas : ℕ
  minReplicas : ℕ
  ipUsed : Option ℤ
  nodeType : String
  nodes : Option ℤ
  perNodeCapacity : Option ℤ
deriving DecidableEq, Repr

/-- Assignment row pushed for a Consumption app. -/
def consRow (a : AppInput) : Assignment :=
  { name := displayName a
    plan := "Consumption"
    replicas := a.replicas
    minReplicas := a.minReplicas
    ipUsed := some (ipUsedCons a.replicas)
    nodeType := "-"
    nodes := none
    perNodeCapacity := none }

/-- Assignment row pushed for a Dedicated app from its per-app node result. -/
def dedRow (e : PerAppResult) : Assignment :=
  { name := e.appName
    plan := e.plan
    replicas := e.replicas
    minReplicas := e.minReplicas
    ipUsed := none
    nodeType := e.nodeTypeName
    nodes := some e.nodesNeeded
    perNodeCapacity := some e.perNodeCapacity }

/-- The subnet-size warning computed at the top of calculate: the prefix
length is parsed from the "/N" or bare-digits form only, and the warning
fires when bits > 27. -/
def subnetWarning (subnet : String) : String :=
  let cs := subnet.data
  let bits : Option ℤ :=
    match cs with
    | '/' :: rest => parseIntChars rest
    | _ => if !cs.isEmpty && cs.all Char.isDigit then parseIntChars cs else none
  match bits with
  | some b => if 27 < b then "Minimum subnet size for integration is /27!" else ""
  | none => ""

/-- Detail line fragment for one Dedicated per-app result. -/
def dedDetail (e : PerAppResult) : String :=
  e.appName ++ ": " ++ toString e.nodesNeeded ++ " x " ++ e.nodeTypeName ++
    " (up to " ++ toString e.perNodeCapacity ++ " per node)"

/-- Detail line fragment for one Consumption app in the Mix branch. -/
def consDetail (a : AppInput) : String :=
  displayName a ++ ": " ++ toString (ipUsedCons a.replicas) ++ " IPs (Consumption)"

/-- The planner's result record.  Fields the source leaves undefined in
some branches (perAppDedicated) or fills with the falsy empty string
(warning) are modelled with Option. -/
structure PlanResult where
  plan : String
  ips : ℤ
  doubledIPs : ℤ
  details : String
  appAssignments : List Assignment
  warning : Option String
  perAppDedicated : Option (List PerAppResult)
  minReplicas : ℕ
deriving DecidableEq, Repr

/-- calculate(apps, subnet, planChoice), the capacity planner: splits apps
by plan (under Mix), sums Consumption IP costs ceil(replicas/10) and
Dedicated node counts for the peak phase, and fills doubledIPs with the
same accounting evaluated at (minReplicas || 1) per app (Consumption) or
at minReplicas (Dedicated, useMinReplicas = true). -/
def calculate (apps : List AppInput) (subnet : String) (planChoice : PlanChoice) : PlanResult :=
  let warning := subnetWarning subnet
  let totalMinReplicas := (apps.map minOr1).sum
  match planChoice with
  | PlanChoice.Mix =>
    let consApps := apps.filter (fun a => a.plan = some PlanType.Consumption)
    let dedApps := apps.filter (fun a => a.plan = some PlanType.Dedicated)
    let consIPs := (consApps.map (fun a => ipUsedCons a.replicas)).sum
    let dedResult := getPerAppDedicatedNodes dedApps false
    let details :=
      String.intercalate "; "
        (((if consApps.isEmpty then none
            else some (String.intercalate "; " (consApps.map consDetail))) ::
          (if dedResult.perApp.isEmpty then none
            else some (String.intercalate "; " (dedResult.perApp.map dedDetail))) :: []).filterMap id)
    { plan := "Mix"
      ips := consIPs + dedResult.totalNodes
      doubledIPs := (consApps.map (fun a => ipUsedCons (minOr1 a))).sum +
        (getPerAppDedicatedNodes dedApps true).totalNodes
      details := details
      appAssignments := consApps.map consRow ++ dedResult.perApp.map dedRow
      warning := if warning = "" then dedResult.warning else some warning
      perAppDedicated := some dedResult.perApp
      minReplicas := totalMinReplicas }
  | PlanChoice.Consumption =>
    { plan := "Consumption"
      ips := (apps.map (fun a => ipUsedCons a.replicas)).sum
      doubledIPs := (apps.map (fun a => ipUsedCons (minOr1 a))).sum
      details := "Consumption apps: " ++ toString apps.length
      appAssignments := apps.map consRow
      warning := if warning = "" then none else some warning
      perAppDedicated := none
      minReplicas := totalMinReplicas }
  | PlanChoice.Dedicated =>
    let dedResult := getPerAppDedicatedNodes apps false
    { plan := "Dedicated"
      ips := dedResult.totalNodes
      doubledIPs := (getPerAppDedicatedNodes apps true).totalNodes
      details :=
        match dedResult.warning with
        | some w => w
        | none => String.intercalate "; " (dedResult.perApp.map dedDetail)
      appAssignments := dedResult.perApp.map dedRow
      warning := if warning = "" then dedResult.warning else some warning
      perAppDedicated := some dedResult.perApp
      minReplicas := totalMinReplicas }

/-- handleSubmit's gate around the planner: the form's errors are computed
by validateAllApps and the result is only produced when the error list is
empty. -/
def handleSubmit (apps : List AppInput) (subnet : String) (planChoice : PlanChoice) :
    List String × Option PlanResult :=
  let errors := validateAllApps apps planChoice
  (errors, if errors = [] then some (calculate apps subnet planChoice) else none)

/-- C1: the claim fails at the boundary N = 0.  The source's guard is the
truthiness test `bits && bits >= 0 && bits <= 32`; a parsed prefix length
of 0 is falsy, so every accepted form of prefix length 0 yields null
instead of 2^32 - 14. -/
theorem getAvailableIPs_at_zero :
    getAvailableIPs "/0" = none ∧ getAvailableIPs "0" = none ∧
      getAvailableIPs "0.0.0.0" = none := by
  refine ⟨by decide, by decide, by decide⟩

set_option maxHeartbeats 2000000 in
/-- C1 (amended): for every prefix length N with 1 <= N <= 32, the
available-IP computation returns 2^(32-N) - 14, and the same value is
returned for the "/N" form, the bare-integer form, and the equivalent
dotted-decimal netmask; the boundary N = 0 instead yields null. -/
theorem getAvailableIPs_forms_agree :
    ∀ n : ℕ, n < 33 → 1 ≤ n →
      (getAvailableIPs ("/" ++ toString n) = some ((2 : ℤ) ^ (32 - n) - 14) ∧
       getAvailableIPs (toString n) = some ((2 : ℤ) ^ (32 - n) - 14) ∧
       getAvailableIPs (maskString n) = some ((2 : ℤ) ^ (32 - n) - 14)) := by
  decide

/-- Witness for the amended C1 at N = 27. -/
theorem getAvailableIPs_forms_agree_witness :
    getAvailableIPs "/27" = some ((2 : ℤ) ^ (32 - 27) - 14) ∧
      getAvailableIPs "27" = some ((2 : ℤ) ^ (32 - 27) - 14) ∧
      getAvailableIPs (maskString 27) = some ((2 : ℤ) ^ (32 - 27) - 14) :=
  getAvailableIPs_forms_agree 27 (by decide) (by decide)

/-- C9: for every prefix length N with 29 <= N <= 32, in each accepted
input form, the available-IP computation returns the strictly negative
value 2^(32-N) - 14 rather than null or a clamped zero. -/
theorem getAvailableIPs_small_subnet_negative :
    ∀ n : ℕ, n < 33 → 29 ≤ n →
      (getAvailableIPs ("/" ++ toString n) = some ((2 : ℤ) ^ (32 - n) - 14) ∧
       getAvailableIPs (toString n) = some ((2 : ℤ) ^ (32 - n) - 14) ∧
       getAvailableIPs (maskString n) = some ((2 : ℤ) ^ (32 - n) - 14) ∧
       (2 : ℤ) ^ (32 - n) - 14 < 0) := by
  decide

/-- Witness for C9 at N = 29, where the returned figure is -6. -/
theorem getAvailableIPs_small_subnet_negative_witness :
    getAvailableIPs "/29" = some ((2 : ℤ) ^ (32 - 29) - 14) ∧
      getAvailableIPs "29" = some ((2 : ℤ) ^ (32 - 29) - 14) ∧
      getAvailableIPs (maskString 29) = some ((2 : ℤ) ^ (32 - 29) - 14) ∧
      (2 : ℤ) ^ (32 - 29) - 14 < 0 :=
  getAvailableIPs_small_subnet_negative 29 (by decide) (by decide)

unseal Rat.mul Rat.inv Rat.add Rat.sub in
/-- C2: the planner's upgrade-phase figure is not the accounting at
doubled minimum replica counts.  For a single Consumption app with
minReplicas = 6 the result's doubledIPs field is ceil(6/10) = 1, while
the per-app accounting at 2 x minReplicas gives ceil(12/10) = 2: the
source's calculate evaluates the upgrade phase at minReplicas itself,
although the repository's README, in-app help text and the upgrade-phase
table (which recomputes with minReplicas * 2 before display) all
describe the upgrade phase as minimum replicas doubled. -/
theorem doubledIPs_not_doubled :
    (calculate [⟨"a", 1, 0, 2, 6, 6, 6, none⟩] "/24" PlanChoice.Consumption).doubledIPs = 1 ∧
      ipUsedCons (2 * 6) = 2 ∧
      (calculate [⟨"a", 1, 0, 2, 6, 6, 6, none⟩] "/24" PlanChoice.Consumption).doubledIPs =
        ipUsedCons (minOr1 ⟨"a", 1, 0, 2, 6, 6, 6, none⟩) := by
  refine ⟨by decide, by decide, by decide⟩

/-- C8: the planner is a pure function of the apps list, the subnet string
and the plan choice (plus the static catalog constant): two invocations on
identical inputs yield equal PlanResult values. -/
theorem calculate_deterministic :
    ∀ (apps₁ apps₂ : List AppInput) (subnet₁ subnet₂ : String) (pc₁ pc₂ : PlanChoice),
      apps₁ = apps₂ → subnet₁ = subnet₂ → pc₁ = pc₂ →
      calculate apps₁ subnet₁ pc₁ = calculate apps₂ subnet₂ pc₂ := by
  intro apps₁ apps₂ subnet₁ subnet₂ pc₁ pc₂ h₁ h₂ h₃
  rw [h₁, h₂, h₃]

/-- Witness for C8 on a concrete request. -/
theorem calculate_deterministic_witness :
    calculate [⟨"app1", 1, 0, 2, 2, 13, 25, none⟩] "/27" PlanChoice.Consumption =
      calculate [⟨"app1", 1, 0, 2, 2, 13, 25, none⟩] "/27" PlanChoice.Consumption :=
  calculate_deterministic _ _ _ _ _ _ rfl rfl rfl

/-- In every suffix of the catalog, no entry of the same resource family
as the suffix's head is componentwise at most the head without being the
head: within each family the catalog is listed in ascending capacity
order. -/
theorem catalog_suffix_no_smaller :
    ∀ (s : NodeType) (bs : List NodeType), (s :: bs) ∈ DEDICATED_NODE_TYPES.tails →
      ∀ t ∈ s :: bs, skuFamily t = skuFamily s →
        t.cpu ≤ s.cpu → t.ram ≤ s.ram → t.gpu ≤ s.gpu → t = s := by
  intro s bs hmem
  simp only [DEDICATED_NODE_TYPES, List.tails, List.mem_cons, List.not_mem_nil, or_false] at hmem
  rcases hmem with h | h | h | h | h | h | h | h | h | h | h | h <;>
    first
    | (injection h with hs hbs; subst hs; subst hbs; decide)
    | (exact absurd h (by simp))

/-- C3: the fit resolver is first-fit over the catalog order, which is not
smallest-fit across resource families.  For the requirement cpu = 1,
ram = 20, gpu = 0 it returns D8 (8 CPU, 32 RAM), although E4 (4 CPU,
32 RAM) also fits and has componentwise no larger and strictly smaller
capacity. -/
theorem findNodeType_not_smallest :
    findNodeType ⟨"w", 1, 0, 20, 1, 1, 1, none⟩ = some ⟨"D8", 8, 32, 0⟩ ∧
      (⟨"E4", 4, 32, 0⟩ : NodeType) ∈ DEDICATED_NODE_TYPES ∧
      fitsNode ⟨"w", 1, 0, 20, 1, 1, 1, none⟩ ⟨"E4", 4, 32, 0⟩ = true ∧
      (4 : ℚ) < 8 ∧ (32 : ℚ) ≤ 32 ∧ (0 : ℚ) ≤ 0 := by
  refine ⟨by decide, by decide, by decide, by decide, by decide, by decide⟩

/-- C3 (amended): the fit resolver returns the first catalog entry
satisfying all three dimensions; because each resource family is listed
in ascending capacity order, the returned SKU is minimal among fitting
entries of its own family (no same-family fitting entry has strictly
smaller capacity), but a fitting entry of a different family may be
strictly smaller, as the counterexample shows. -/
theorem findNodeType_family_minimal :
    ∀ (a : AppInput) (s t : NodeType), findNodeType a = some s →
      t ∈ DEDICATED_NODE_TYPES → skuFamily t = skuFamily s → fitsNode a t = true →
      t = s ∨ ¬(t.cpu ≤ s.cpu ∧ t.ram ≤ s.ram ∧ t.gpu ≤ s.gpu) := by
  intro a s t hfind ht hfam hfit
  rcases List.find?_eq_some.mp hfind with ⟨hps, as, bs, hsplit, hpre⟩
  by_contra hcon
  push_neg at hcon
  obtain ⟨hne, hcpu, hram, hgpu⟩ := hcon
  rw [hsplit] at ht
  rcases List.mem_append.mp ht with hin | hin
  · have := hpre t hin
    simp [hfit] at this
  · have hmem : (s :: bs) ∈ DEDICATED_NODE_TYPES.tails :=
      (List.mem_tails _ _).mpr ⟨as, hsplit.symm⟩
    exact hne (catalog_suffix_no_smaller s bs hmem t hin hfam hcpu hram hgpu)

/-- Witness for the amended C3: the requirement cpu = 1, ram = 20 resolves
to D8, and D16 is a same-family fitting entry that is not strictly
smaller. -/
theorem findNodeType_family_minimal_witness :
    (⟨"D16", 16, 64, 0⟩ : NodeType) = ⟨"D8", 8, 32, 0⟩ ∨
      ¬((16 : ℚ) ≤ 8 ∧ (64 : ℚ) ≤ 32 ∧ (0 : ℚ) ≤ 0) :=
  findNodeType_family_minimal ⟨"w", 1, 0, 20, 1, 1, 1, none⟩ ⟨"D8", 8, 32, 0⟩
    ⟨"D16", 16, 64, 0⟩ (by decide) (by decide) (by decide) (by decide)

/-- C4: for an app satisfying the data-model invariant (cpu > 0, ram > 0,
gpu >= 0) whose node type resolves, the per-app dedicated accounting
stores perNodeCapacity = min(floor(nodeCpu/appCpu), floor(nodeRam/appRam),
and floor(nodeGpu/appGpu) when appGpu > 0, the gpu term being dropped
otherwise); that capacity is positive, nodesNeeded is the ceiling of the
replica count over it, and in the (here unreachable) case of a
nonpositive capacity the stored node count is 0 and the aggregate result
carries a warning. -/
theorem dedicated_capacity_nodes :
    ∀ (apps : List AppInput) (a : AppInput) (nt : NodeType) (useMin : Bool),
      a ∈ apps → 0 < a.cpu → 0 < a.ram → 0 ≤ a.gpu → findNodeType a = some nt →
      ((dedicatedPerApp useMin a).perNodeCapacity =
        (if 0 < a.gpu then min (min ⌊nt.cpu / a.cpu⌋ ⌊nt.ram / a.ram⌋) ⌊nt.gpu / a.gpu⌋
         else min ⌊nt.cpu / a.cpu⌋ ⌊nt.ram / a.ram⌋)) ∧
      0 < (dedicatedPerApp useMin a).perNodeCapacity ∧
      ((dedicatedPerApp useMin a).nodesNeeded =
        ⌈((dedicatedPerApp useMin a).replicas : ℚ) /
          ((dedicatedPerApp useMin a).perNodeCapacity : ℚ)⌉) ∧
      ((dedicatedPerApp useMin a).perNodeCapacity ≤ 0 →
        (dedicatedPerApp useMin a).nodesNeeded = 0 ∧
        (getPerAppDedicatedNodes apps useMin).warning.isSome = true) := by
  intro apps a nt useMin _ hcpu hram _ hfind
  have hts := List.find?_some hfind
  simp only [fitsNode, Bool.and_eq_true, decide_eq_true_eq] at hts
  obtain ⟨⟨hc, hr⟩, hg⟩ := hts
  have h1 : (1 : ℤ) ≤ ⌊nt.cpu / a.cpu⌋ :=
    Int.le_floor.mpr (by rw [Int.cast_one]; exact (one_le_div hcpu).mpr hc)
  have h2 : (1 : ℤ) ≤ ⌊nt.ram / a.ram⌋ :=
    Int.le_floor.mpr (by rw [Int.cast_one]; exact (one_le_div hram).mpr hr)
  have hpos : 0 < perNodeCapacity nt a := by
    unfold perNodeCapacity
    split
    · rename_i hg0
      have h3 : (1 : ℤ) ≤ ⌊nt.gpu / a.gpu⌋ :=
        Int.le_floor.mpr (by rw [Int.cast_one]; exact (one_le_div hg0).mpr hg)
      simp only [lt_min_iff]
      omega
    · simp only [lt_min_iff]
      omega
  have hentry : (dedicatedPerApp useMin a).perNodeCapacity = perNodeCapacity nt a := by
    simp [dedicatedPerApp, hfind]
  refine ⟨?_, ?_, ?_, ?_⟩
  · rw [hentry]
    unfold perNodeCapacity
    rfl
  · rw [hentry]; exact hpos
  · simp [dedicatedPerApp, hfind, hpos]
  · intro hle
    rw [hentry] at hle
    exact absurd hpos (not_lt.mpr hle)

unseal Rat.mul Rat.inv Rat.add Rat.sub in
/-- Witness for C4: the spec's worked scenario, an app with cpu = 20,
ram = 200 resolving to E32 with capacity 1 and 5 nodes for 5 replicas. -/
theorem dedicated_capacity_nodes_witness :
    ((dedicatedPerApp false ⟨"a", 20, 0, 200, 1, 3, 5, none⟩).perNodeCapacity =
      (if (0 : ℚ) < 0 then
        min (min ⌊(32 : ℚ) / 20⌋ ⌊(256 : ℚ) / 200⌋) ⌊(0 : ℚ) / 0⌋
       else min ⌊(32 : ℚ) / 20⌋ ⌊(256 : ℚ) / 200⌋)) ∧
    0 < (dedicatedPerApp false ⟨"a", 20, 0, 200, 1, 3, 5, none⟩).perNodeCapacity ∧
    ((dedicatedPerApp false ⟨"a", 20, 0, 200, 1, 3, 5, none⟩).nodesNeeded =
      ⌈((dedicatedPerApp false ⟨"a", 20, 0, 200, 1, 3, 5, none⟩).replicas : ℚ) /
        ((dedicatedPerApp false ⟨"a", 20, 0, 200, 1, 3, 5, none⟩).perNodeCapacity : ℚ)⌉) ∧
    ((dedicatedPerApp false ⟨"a", 20, 0, 200, 1, 3, 5, none⟩).perNodeCapacity ≤ 0 →
      (dedicatedPerApp false ⟨"a", 20, 0, 200, 1, 3, 5, none⟩).nodesNeeded = 0 ∧
      (getPerAppDedicatedNodes [⟨"a", 20, 0, 200, 1, 3, 5, none⟩] false).warning.isSome = true) :=
  dedicated_capacity_nodes [⟨"a", 20, 0, 200, 1, 3, 5, none⟩] ⟨"a", 20, 0, 200, 1, 3, 5, none⟩
    ⟨"E32", 32, 256, 0⟩ false (by decide) (by decide) (by decide) (by decide) (by decide)

/-- C5: an app whose requirement fits no catalog entry does not derail the
planner: its row carries zero nodes (hence zero IP cost), the aggregate
carries the no-suitable-node-type warning, the other apps' rows are
exactly what they would be without the unsatisfiable app, and the node
and IP totals (peak and upgrade phase) are unchanged. -/
theorem unfit_app_isolated :
    ∀ (pre post : List AppInput) (bad : AppInput) (useMin : Bool) (subnet : String),
      findNodeType bad = none →
      (dedicatedPerApp useMin bad).nodesNeeded = 0 ∧
      (getPerAppDedicatedNodes (pre ++ bad :: post) useMin).perApp =
        pre.map (dedicatedPerApp useMin) ++
          dedicatedPerApp useMin bad :: post.map (dedicatedPerApp useMin) ∧
      (getPerAppDedicatedNodes (pre ++ bad :: post) useMin).totalNodes =
        (getPerAppDedicatedNodes (pre ++ post) useMin).totalNodes ∧
      (getPerAppDedicatedNodes (pre ++ bad :: post) useMin).warning =
        some "No suitable node type found for one or more apps." ∧
      (calculate (pre ++ bad :: post) subnet PlanChoice.Dedicated).ips =
        (calculate (pre ++ post) subnet PlanChoice.Dedicated).ips ∧
      (calculate (pre ++ bad :: post) subnet PlanChoice.Dedicated).doubledIPs =
        (calculate (pre ++ post) subnet PlanChoice.Dedicated).doubledIPs := by
  intro pre post bad useMin subnet hbad
  have hzero : ∀ um : Bool, (dedicatedPerApp um bad).nodesNeeded = 0 := by
    intro um
    simp [dedicatedPerApp, hbad]
  have htot : ∀ um : Bool,
      (getPerAppDedicatedNodes (pre ++ bad :: post) um).totalNodes =
        (getPerAppDedicatedNodes (pre ++ post) um).totalNodes := by
    intro um
    simp only [getPerAppDedicatedNodes, List.map_append, List.map_cons, List.sum_append,
      List.sum_cons, hzero um, zero_add]
  have hwarn : (getPerAppDedicatedNodes (pre ++ bad :: post) useMin).warning =
      some "No suitable node type found for one or more apps." := by
    simp [getPerAppDedicatedNodes, List.any_append, List.any_cons, hbad]
  refine ⟨hzero useMin, ?_, htot useMin, hwarn, ?_, ?_⟩
  · simp [getPerAppDedicatedNodes, List.map_append]
  · simp only [calculate]
    exact htot false
  · simp only [calculate]
    exact htot true

unseal Rat.mul Rat.inv Rat.add Rat.sub in
/-- Witness for C5: a gpu = 8 app (beyond the catalog's maximum of 4 GPUs)
next to an ordinary app. -/
theorem unfit_app_isolated_witness :
    (dedicatedPerApp false ⟨"g8", 1, 8, 2, 1, 1, 1, none⟩).nodesNeeded = 0 ∧
      (getPerAppDedicatedNodes
          ([⟨"ok", 1, 0, 2, 1, 3, 5, none⟩] ++ ⟨"g8", 1, 8, 2, 1, 1, 1, none⟩ :: []) false).perApp =
        [⟨"ok", 1, 0, 2, 1, 3, 5, none⟩].map (dedicatedPerApp false) ++
          dedicatedPerApp false ⟨"g8", 1, 8, 2, 1, 1, 1, none⟩ :: List.map (dedicatedPerApp false) [] ∧
      (getPerAppDedicatedNodes
          ([⟨"ok", 1, 0, 2, 1, 3, 5, none⟩] ++ ⟨"g8", 1, 8, 2, 1, 1, 1, none⟩ :: []) false).totalNodes =
        (getPerAppDedicatedNodes ([⟨"ok", 1, 0, 2, 1, 3, 5, none⟩] ++ []) false).totalNodes ∧
      (getPerAppDedicatedNodes
          ([⟨"ok", 1, 0, 2, 1, 3, 5, none⟩] ++ ⟨"g8", 1, 8, 2, 1, 1, 1, none⟩ :: []) false).warning =
        some "No suitable node type found for one or more apps." ∧
      (calculate ([⟨"ok", 1, 0, 2, 1, 3, 5, none⟩] ++ ⟨"g8", 1, 8, 2, 1, 1, 1, none⟩ :: [])
          "/24" PlanChoice.Dedicated).ips =
        (calculate ([⟨"ok", 1, 0, 2, 1, 3, 5, none⟩] ++ []) "/24" PlanChoice.Dedicated).ips ∧
      (calculate ([⟨"ok", 1, 0, 2, 1, 3, 5, none⟩] ++ ⟨"g8", 1, 8, 2, 1, 1, 1, none⟩ :: [])
          "/24" PlanChoice.Dedicated).doubledIPs =
        (calculate ([⟨"ok", 1, 0, 2, 1, 3, 5, none⟩] ++ []) "/24" PlanChoice.Dedicated).doubledIPs :=
  unfit_app_isolated [⟨"ok", 1, 0, 2, 1, 3, 5, none⟩] [] ⟨"g8", 1, 8, 2, 1, 1, 1, none⟩
    false "/24" (by decide)

/-- Any message contributed by the app at position i of the list (with the
forEach counter starting at idx) appears in the collected error list. -/
theorem mem_validateAllAppsFrom :
    ∀ (apps : List AppInput) (idx i : ℕ) (h : i < apps.length) (e : String) (pc : PlanChoice),
      e ∈ appErrors (idx + i) (apps.get ⟨i, h⟩) pc → e ∈ validateAllAppsFrom idx apps pc := by
  intro apps
  induction apps with
  | nil => intro idx i h; exact absurd h (by simp)
  | cons a rest ih =>
    intro idx i h e pc hmem
    cases i with
    | zero =>
      exact List.mem_append_left _ (by simpa using hmem)
    | succ j =>
      refine List.mem_append_right _ (ih (idx + 1) j (by simpa using h) e pc ?_)
      have harith : idx + (j + 1) = idx + 1 + j := by omega
      simpa [harith] using hmem

/-- C6: under a Consumption plan choice (globally, or for a
Consumption-tagged app under Mix), an app exceeding a Consumption limit
(cpu > 4, ram > 8 or gpu > 0) makes validation fail: validateAppInput
yields exactly one message for it (naming the exceeded limit), the
labelled message is collected in the error list produced by the forEach
over all apps, the list is nonempty, and handleSubmit then computes no
plan at all. -/
theorem consumption_limits_block :
    ∀ (apps : List AppInput) (subnet : String) (pc : PlanChoice) (i : ℕ) (h : i < apps.length),
      (pc = PlanChoice.Consumption ∨
        (pc = PlanChoice.Mix ∧ (apps.get ⟨i, h⟩).plan = some PlanType.Consumption)) →
      (4 < (apps.get ⟨i, h⟩).cpu ∨ 8 < (apps.get ⟨i, h⟩).ram ∨ 0 < (apps.get ⟨i, h⟩).gpu) →
      (∃ msg, validateAppInput (apps.get ⟨i, h⟩) pc = some msg ∧
        appLabel i (apps.get ⟨i, h⟩) ++ msg ∈ validateAllApps apps pc) ∧
      validateAllApps apps pc ≠ [] ∧
      (handleSubmit apps subnet pc).2 = none := by
  intro apps subnet pc i h hcons hviol
  have hval : ∃ msg, validateAppInput (apps.get ⟨i, h⟩) pc = some msg := by
    simp only [validateAppInput]
    rw [if_pos hcons]
    by_cases h1 : 4 < (apps.get ⟨i, h⟩).cpu
    · exact ⟨_, by rw [if_pos h1]⟩
    · by_cases h2 : 8 < (apps.get ⟨i, h⟩).ram
      · exact ⟨_, by rw [if_neg h1, if_pos h2]⟩
      · have h3 : 0 < (apps.get ⟨i, h⟩).gpu := by tauto
        exact ⟨_, by rw [if_neg h1, if_neg h2, if_pos h3]⟩
  obtain ⟨msg, hmsg⟩ := hval
  have hmem : appLabel i (apps.get ⟨i, h⟩) ++ msg ∈ validateAllApps apps pc := by
    apply mem_validateAllAppsFrom apps 0 i h
    rw [Nat.zero_add]
    simp [appErrors]
    exact Or.inl ⟨msg, hmsg, rfl⟩
  have hne : validateAllApps apps pc ≠ [] := List.ne_nil_of_mem hmem
  refine ⟨⟨msg, hmsg, hmem⟩, hne, ?_⟩
  simp [handleSubmit, hne]

/-- Witness for C6: the spec's validation scenario, a Consumption app with
cpu = 5. -/
theorem consumption_limits_block_witness :
    (∃ msg, validateAppInput ([(⟨"x", 5, 0, 2, 1, 1, 1, none⟩ : AppInput)].get ⟨0, by decide⟩)
        PlanChoice.Consumption = some msg ∧
      appLabel 0 ([(⟨"x", 5, 0, 2, 1, 1, 1, none⟩ : AppInput)].get ⟨0, by decide⟩) ++ msg ∈
        validateAllApps [⟨"x", 5, 0, 2, 1, 1, 1, none⟩] PlanChoice.Consumption) ∧
      validateAllApps [⟨"x", 5, 0, 2, 1, 1, 1, none⟩] PlanChoice.Consumption ≠ [] ∧
      (handleSubmit [⟨"x", 5, 0, 2, 1, 1, 1, none⟩] "/24" PlanChoice.Consumption).2 = none :=
  consumption_limits_block [⟨"x", 5, 0, 2, 1, 1, 1, none⟩] "/24" PlanChoice.Consumption 0
    (by decide) (Or.inl rfl) (Or.inl (by norm_num))

/-- The Consumption IP cost is k + 1 on the whole band
10k + 1 <= r <= 10(k + 1). -/
theorem ipUsedCons_band (k r : ℕ) (h1 : 10 * k + 1 ≤ r) (h2 : r ≤ 10 * (k + 1)) :
    ipUsedCons r = k + 1 := by
  unfold ipUsedCons
  rw [Int.ceil_eq_iff]
  constructor
  · push_cast
    rw [lt_div_iff₀ (by norm_num : (0 : ℚ) < 10)]
    have : (10 * k + 1 : ℚ) ≤ r := by exact_mod_cast h1
    linarith
  · push_cast
    rw [div_le_iff₀ (by norm_num : (0 : ℚ) < 10)]
    have : (r : ℚ) ≤ 10 * (k + 1) := by exact_mod_cast h2
    linarith

/-- The Consumption IP cost at an exact multiple of 10 is the multiplier. -/
theorem ipUsedCons_mul10 (k : ℕ) : ipUsedCons (10 * k) = k := by
  unfold ipUsedCons
  rw [show ((10 * k : ℕ) : ℚ) / 10 = (k : ℚ) by push_cast; ring]
  exact_mod_cast Int.ceil_natCast (α := ℚ) k

/-- C7: under Consumption accounting every per-app assignment row carries
ipUsed = ceil(replicas/10); this cost is monotonically non-decreasing in
the replica count, rises by exactly 1 when the count crosses a multiple
of 10, and is constant on each band between consecutive multiples. -/
theorem consumption_ip_cost_shape :
    (∀ (apps : List AppInput) (subnet : String) (row : Assignment),
      row ∈ (calculate apps subnet PlanChoice.Consumption).appAssignments →
      row.ipUsed = some (ipUsedCons row.replicas)) ∧
    (∀ r s : ℕ, r ≤ s → ipUsedCons r ≤ ipUsedCons s) ∧
    (∀ k : ℕ, ipUsedCons (10 * k + 1) = ipUsedCons (10 * k) + 1) ∧
    (∀ k r : ℕ, 10 * k + 1 ≤ r → r ≤ 10 * (k + 1) → ipUsedCons r = ipUsedCons (10 * k + 1)) := by
  refine ⟨?_, ?_, ?_, ?_⟩
  · intro apps subnet row hrow
    simp only [calculate] at hrow
    obtain ⟨a, _, rfl⟩ := List.mem_map.mp hrow
    simp [consRow]
  · intro r s hrs
    unfold ipUsedCons
    have hq : (r : ℚ) ≤ (s : ℚ) := by exact_mod_cast hrs
    exact Int.ceil_le_ceil (by gcongr)
  · intro k
    rw [ipUsedCons_band k (10 * k + 1) le_rfl (by omega), ipUsedCons_mul10]
  · intro k r h1 h2
    rw [ipUsedCons_band k r h1 h2, ipUsedCons_band k (10 * k + 1) le_rfl (by omega)]

unseal Rat.mul Rat.inv Rat.add Rat.sub in
/-- Witness for C7: the cost band around 20 replicas; the step from 20 to
21 raises the cost from 2 to 3. -/
theorem consumption_ip_cost_shape_witness :
    ipUsedCons 20 ≤ ipUsedCons 21 ∧
      ipUsedCons (10 * 2 + 1) = ipUsedCons (10 * 2) + 1 ∧
      ipUsedCons 25 = ipUsedCons (10 * 2 + 1) :=
  ⟨consumption_ip_cost_shape.2.1 20 21 (by norm_num),
   consumption_ip_cost_shape.2.2.1 2,
   consumption_ip_cost_shape.2.2.2 2 25 (by norm_num) (by norm_num)⟩

/-- C10: under Mix, an app tagged with neither plan (plan left undefined)
is excluded by both filters: the peak IP total, the upgrade-phase IP
total and the per-app assignment rows are exactly those computed from the
tagged apps alone, and no row is produced for the untagged app. -/
theorem mix_untagged_excluded :
    ∀ (pre post : List AppInput) (u : AppInput) (subnet : String),
      u.plan = none →
      (calculate (pre ++ u :: post) subnet PlanChoice.Mix).ips =
        (calculate (pre ++ post) subnet PlanChoice.Mix).ips ∧
      (calculate (pre ++ u :: post) subnet PlanChoice.Mix).doubledIPs =
        (calculate (pre ++ post) subnet PlanChoice.Mix).doubledIPs ∧
      (calculate (pre ++ u :: post) subnet PlanChoice.Mix).appAssignments =
        (calculate (pre ++ post) subnet PlanChoice.Mix).appAssignments := by
  intro pre post u subnet hu
  have key : ∀ p : AppInput → Bool, p u = false →
      (pre ++ u :: post).filter p = (pre ++ post).filter p := by
    intro p hp
    simp [List.filter_append, List.filter_cons, hp]
  have h1 := key (fun a => decide (a.plan = some PlanType.Consumption)) (by simp [hu])
  have h2 := key (fun a => decide (a.plan = some PlanType.Dedicated)) (by simp [hu])
  refine ⟨?_, ?_, ?_⟩ <;> simp only [calculate, h1, h2]

unseal Rat.mul Rat.inv Rat.add Rat.sub in
/-- Witness for C10: one Consumption-tagged app next to one untagged app. -/
theorem mix_untagged_excluded_witness :
    (calculate ([⟨"c", 1, 0, 2, 1, 3, 5, some PlanType.Consumption⟩] ++
        ⟨"u", 1, 0, 2, 1, 3, 5, none⟩ :: []) "/24" PlanChoice.Mix).ips =
      (calculate ([⟨"c", 1, 0, 2, 1, 3, 5, some PlanType.Consumption⟩] ++ [])
        "/24" PlanChoice.Mix).ips ∧
    (calculate ([⟨"c", 1, 0, 2, 1, 3, 5, some PlanType.Consumption⟩] ++
        ⟨"u", 1, 0, 2, 1, 3, 5, none⟩ :: []) "/24" PlanChoice.Mix).doubledIPs =
      (calculate ([⟨"c", 1, 0, 2, 1, 3, 5, some PlanType.Consumption⟩] ++ [])
        "/24" PlanChoice.Mix).doubledIPs ∧
    (calculate ([⟨"c", 1, 0, 2, 1, 3, 5, some PlanType.Consumption⟩] ++
        ⟨"u", 1, 0, 2, 1, 3, 5, none⟩ :: []) "/24" PlanChoice.Mix).appAssignments =
      (calculate ([⟨"c", 1, 0, 2, 1, 3, 5, some PlanType.Consumption⟩] ++ [])
        "/24" PlanChoice.Mix).appAssignments :=
  mix_untagged_excluded [⟨"c", 1, 0, 2, 1, 3, 5, some PlanType.Consumption⟩] []
    ⟨"u", 1, 0, 2, 1, 3, 5, none⟩ "/24" rfl
